import Mathlib

/-!
Verification of the OSC client core of remix-mcp (src/osc/client.rs,
src/osc/response.rs, src/error.rs) against its natural-language
specification.

Shallow embedding conventions:
* `rosc::OscType` float payloads (`f32`) are modelled as rationals: the
  client never performs float arithmetic, it only carries received values
  and applies Rust `as` casts between `i32` and `f32`.  The `i32 -> f32`
  cast is modelled as the exact cast into ℚ (exact for all values the
  decoders are specified on), and the `f32 -> i32` cast as truncation
  toward zero saturating at the `i32` bounds, which is Rust's semantics.
* `rosc::OscError` (wire codec errors) and `std::io::Error` are abstracted
  as `String` payloads; the code never inspects them, it only wraps them.
* The asynchronous socket is modelled by a trace: a list of the outcomes
  of successive `tokio::time::timeout(_, socket.recv_from(_))` attempts.
  An exhausted trace means the peer is silent, so further attempts time
  out.  The external encoder and the `send_to` syscall are abstracted by
  a `NetEnv` record giving their outcomes.
-/

namespace Remix

/-- OSC argument values handled by the client (`rosc::OscType`, restricted
to the variants the decoders and the spec mention; all remaining `rosc`
variants behave like `Nil` here: every match on them is a catch-all). -/
inductive OscType where
  | Int (v : ℤ)
  | Float (v : ℚ)
  | Double (v : ℚ)
  | String (s : String)
  | Bool (b : Bool)
  | Nil
deriving DecidableEq

/-- `rosc::OscPacket`: a message (address pattern plus arguments) or a
bundle of nested packets.  The bundle timetag is never read by the client
and is omitted. -/
inductive OscPacket where
  | Message (addr : String) (args : List OscType)
  | Bundle (content : List OscPacket)

/-- `crate::error::Error` (src/error.rs).  `OscEncode` wraps a
`rosc::OscError` (also produced by `decoder::decode_udp` via `#[from]`),
`Network` wraps `std::io::Error`, `Timeout` is produced from
`tokio::time::error::Elapsed` via the `From` impl. -/
inductive Error where
  | OscEncode (e : String)
  | Network (e : String)
  | Timeout
  | InvalidResponse (msg : String)
  | InvalidParameter (msg : String)
  | NotConnected
deriving DecidableEq

/-- Rust `{:?}` (Debug) rendering of an `OscType`, used in the
`InvalidResponse` message strings built with `format!`. -/
def debugFmt : OscType → String
  | .Int v => "Int(" ++ toString v ++ ")"
  | .Float v => "Float(" ++ toString v ++ ")"
  | .Double v => "Double(" ++ toString v ++ ")"
  | .String s => "String(" ++ s ++ ")"
  | .Bool b => "Bool(" ++ toString b ++ ")"
  | .Nil => "Nil"

/-- Rust `i32 as f32` cast, modelled exactly (see the file header). -/
def intToF32 (v : ℤ) : ℚ := (v : ℚ)

/-- Rust `f32 as i32` cast: truncation toward zero, saturating at the
`i32` bounds. -/
def f32ToI32 (q : ℚ) : ℤ :=
  max (-(2 ^ 31)) (min (2 ^ 31 - 1) (if 0 ≤ q then ⌊q⌋ else ⌈q⌉))

/-- The loop body of `FromOsc for Vec<OscType>` on a bundle: return the
args of the first directly nested `Message`, else `InvalidResponse("Empty
bundle")` (src/osc/response.rs lines 17-25). -/
def firstMessageArgs : List OscPacket → Except Error (List OscType)
  | [] => .error (.InvalidResponse "Empty bundle")
  | .Message _ args :: _ => .ok args
  | .Bundle _ :: rest => firstMessageArgs rest

/-- `impl FromOsc for Vec<OscType>` (src/osc/response.rs lines 13-28). -/
def vecFromOsc : OscPacket → Except Error (List OscType)
  | .Message _ args => .ok args
  | .Bundle content => firstMessageArgs content

/-- The `for arg in args.iter().rev()` loop of `impl FromOsc for f32`
(src/osc/response.rs lines 36-47).  The input list is the reversed
argument list; `n` is the length of the original list (the loop guard
`args.len() == 1`).  Returns the value of the first `return Ok(..)`
taken, `none` if the loop falls through. -/
def f32RevLoop (n : Nat) : List OscType → Option ℚ
  | [] => none
  | .Float v :: _ => some v
  | .Int v :: rest => if n == 1 then some (intToF32 v) else f32RevLoop n rest
  | _ :: rest => f32RevLoop n rest

/-- `impl FromOsc for f32` applied to an already extracted argument list
(src/osc/response.rs lines 33-57, after the `Vec::<OscType>::from_osc`
call). -/
def f32FromArgs (args : List OscType) : Except Error ℚ :=
  match f32RevLoop args.length args.reverse with
  | some v => .ok v
  | none =>
    match args.head? with
    | some (.Float v) => .ok v
    | some (.Int v) => .ok (intToF32 v)
    | some other => .error (.InvalidResponse ("Expected float, got " ++ debugFmt other))
    | none => .error (.InvalidResponse "No arguments in response")

/-- `impl FromOsc for f32` (src/osc/response.rs lines 32-58). -/
def f32FromOsc (p : OscPacket) : Except Error ℚ :=
  (vecFromOsc p).bind f32FromArgs

/-- The `for arg in args.iter().rev()` loop of `impl FromOsc for i32`
(src/osc/response.rs lines 79-83): first `Int` of the reversed list. -/
def i32RevLoop : List OscType → Option ℤ
  | [] => none
  | .Int v :: _ => some v
  | _ :: rest => i32RevLoop rest

/-- `impl FromOsc for i32` applied to an already extracted argument list
(src/osc/response.rs lines 63-93). -/
def i32FromArgs (args : List OscType) : Except Error ℤ :=
  if args.length == 1 then
    match args.head? with
    | some (.Int v) => .ok v
    | some (.Float v) => .ok (f32ToI32 v)
    | some other => .error (.InvalidResponse ("Expected int, got " ++ debugFmt other))
    | none => .error (.InvalidResponse "No arguments in response")
  else
    match i32RevLoop args.reverse with
    | some v => .ok v
    | none =>
      match args.head? with
      | some (.Int v) => .ok v
      | some (.Float v) => .ok (f32ToI32 v)
      | some other => .error (.InvalidResponse ("Expected int, got " ++ debugFmt other))
      | none => .error (.InvalidResponse "No arguments in response")

/-- `impl FromOsc for i32` (src/osc/response.rs lines 62-94). -/
def i32FromOsc (p : OscPacket) : Except Error ℤ :=
  (vecFromOsc p).bind i32FromArgs

/-- Outcome of one `tokio::time::timeout(_, socket.recv_from(&mut buf))`
attempt: the window elapsed, the receive failed with an io error, or a
datagram arrived whose bytes `decoder::decode_udp` either decodes to a
packet or rejects with a `rosc` error. -/
inductive RecvOutcome where
  | timeout
  | ioError (e : String)
  | datagram (d : Except String OscPacket)

/-- Outcomes of the external effects of one `OscClient::send` call: what
`encoder::encode` returns for the message built from this address and
argument list, and whether `socket.send_to` fails (`some e`) or succeeds
(`none`). -/
structure NetEnv where
  encode : String → List OscType → Except String Unit
  sendErr : Option String

/-- `OscClient::send` (src/osc/client.rs lines 56-68).  The second
component records whether a datagram was put on the wire: `send_to` is
reached only after `encoder::encode(&packet)?` succeeds. -/
def send (env : NetEnv) (addr : String) (args : List OscType) :
    Except Error Unit × Bool :=
  match env.encode addr args with
  | .error e => (.error (.OscEncode e), false)
  | .ok () =>
    match env.sendErr with
    | some e => (.error (.Network e), false)
    | none => (.ok (), true)

/-- `OscClient::clear_recv_buffer` (src/osc/client.rs lines 114-120):
`while timeout(1ms, recv_from(..)).is_ok() {}`.  The loop keeps draining
on a datagram or an io error (`is_ok()` only tests the outer timeout) and
exits on the first elapsed window; an exhausted trace means the next
attempt elapses.  Returns the remaining trace. -/
def clear_recv_buffer : List RecvOutcome → List RecvOutcome
  | [] => []
  | .timeout :: rest => rest
  | .ioError _ :: rest => clear_recv_buffer rest
  | .datagram _ :: rest => clear_recv_buffer rest

/-- One receive attempt: consume the next trace outcome; an exhausted
trace times out. -/
def recvOne : List RecvOutcome → RecvOutcome × List RecvOutcome
  | [] => (.timeout, [])
  | e :: rest => (e, rest)

/-- `OscClient::query` (src/osc/client.rs lines 71-87): clear the receive
buffer, send, then one receive bounded by `response_timeout`.  The outer
`?` turns `Elapsed` into `Error::Timeout`, the inner `?` turns an io
error into `Error::Network`, `decoder::decode_udp(..)?` turns a wire
decode failure into `Error::OscEncode`, and finally `T::from_osc` runs
(passed here explicitly as `decode`, the monomorphised trait method). -/
def query {T : Type} (env : NetEnv) (addr : String) (args : List OscType)
    (decode : OscPacket → Except Error T) (trace : List RecvOutcome) :
    Except Error T :=
  let t := clear_recv_buffer trace
  match (send env addr args).1 with
  | .error e => .error e
  | .ok () =>
    match (recvOne t).1 with
    | .timeout => .error .Timeout
    | .ioError e => .error (.Network e)
    | .datagram (.error e) => .error (.OscEncode e)
    | .datagram (.ok p) => decode p

/-- The `while let Ok(Ok((len, _src))) = timeout(..) { if let Ok((_, packet))
= decode_udp(..) { responses.push(packet) } }` loop of
`OscClient::query_all` (src/osc/client.rs lines 102-108): an elapsed
window or an io error both fail the `Ok(Ok(..))` pattern and exit the
loop; a datagram that fails wire decoding is skipped. -/
def collect_loop : List RecvOutcome → List OscPacket → List OscPacket
  | [], acc => acc
  | .timeout :: _, acc => acc
  | .ioError _ :: _, acc => acc
  | .datagram (.ok p) :: rest, acc => collect_loop rest (acc ++ [p])
  | .datagram (.error _) :: rest, acc => collect_loop rest acc

/-- `OscClient::query_all` (src/osc/client.rs lines 91-111). -/
def query_all (env : NetEnv) (addr : String) (args : List OscType)
    (trace : List RecvOutcome) : Except Error (List OscPacket) :=
  let t := clear_recv_buffer trace
  match (send env addr args).1 with
  | .error e => .error e
  | .ok () => .ok (collect_loop t [])

/-- `OscClient::test_connection` (src/osc/client.rs lines 123-133). -/
def test_connection (env : NetEnv) (trace : List RecvOutcome) :
    Except Error Bool :=
  match query env "/live/song/get/tempo" [] vecFromOsc trace with
  | .ok _ => .ok true
  | .error .Timeout => .ok false
  | .error e => .error e

/-- Step-indexed version of the `clear_recv_buffer` loop: `fuel` bounds
the number of `while` iterations still allowed; `none` means the loop was
still running when the bound ran out. -/
def clearFuel : Nat → List RecvOutcome → Option (List RecvOutcome)
  | 0, _ => none
  | _ + 1, [] => some []
  | _ + 1, .timeout :: rest => some rest
  | fuel + 1, .ioError _ :: rest => clearFuel fuel rest
  | fuel + 1, .datagram _ :: rest => clearFuel fuel rest

/-- Step-indexed version of the `query_all` collection loop. -/
def collectFuel : Nat → List RecvOutcome → List OscPacket →
    Option (List OscPacket)
  | 0, _, _ => none
  | _ + 1, [], acc => some acc
  | _ + 1, .timeout :: _, acc => some acc
  | _ + 1, .ioError _ :: _, acc => some acc
  | fuel + 1, .datagram (.ok p) :: rest, acc => collectFuel fuel rest (acc ++ [p])
  | fuel + 1, .datagram (.error _) :: rest, acc => collectFuel fuel rest acc

/-- The underlying client state an `OscHandle` caches: `OscClient` holds
the bound socket, identified by its ephemeral local port (src/osc/client.rs
lines 26-33); the remote address and timeout are constants. -/
structure ClientRes where
  local_port : Nat
deriving DecidableEq

/-- `OscHandle` (src/osc/client.rs lines 145-148): `Arc<OnceCell<OscClient>>`;
`none` is the empty cell (no socket bound yet). -/
structure OscHandle where
  inner : Option ClientRes
deriving DecidableEq

/-- `OscHandle::new` (src/osc/client.rs lines 158-162): empty cell, no
sockets opened. -/
def OscHandle.new : OscHandle := ⟨none⟩

/-- `OnceCell::initialized` (used by the tests at src/osc/client.rs lines
204, 211, 215). -/
def OscHandle.isInit (h : OscHandle) : Bool := h.inner.isSome

/-- `OscHandle::client` (src/osc/client.rs lines 165-173):
`get_or_try_init` returns the cached client if the cell is set; otherwise
it runs `OscClient::new()` (its outcome abstracted as `mk`), caching the
client on success and leaving the cell empty on failure.  Returns the
result together with the new handle state. -/
def OscHandle.client (h : OscHandle) (mk : Except Error ClientRes) :
    Except Error ClientRes × OscHandle :=
  match h.inner with
  | some c => (.ok c, h)
  | none =>
    match mk with
    | .ok c => (.ok c, ⟨some c⟩)
    | .error e => (.error e, h)

/-- Iterated accesses through `OscHandle::client`, one `mk` outcome per
call; returns the list of results and the final handle state. -/
def OscHandle.accessAll : OscHandle → List (Except Error ClientRes) →
    List (Except Error ClientRes) × OscHandle
  | h, [] => ([], h)
  | h, m :: ms =>
    let step := OscHandle.client h m
    let rest := OscHandle.accessAll step.2 ms
    (step.1 :: rest.1, rest.2)

/-- Is the packet a `Message`? -/
def isMessage : OscPacket → Bool
  | .Message _ _ => true
  | .Bundle _ => false

/-- Is this outcome an elapsed timeout window? -/
def isTimeoutEv : RecvOutcome → Bool
  | .timeout => true
  | _ => false

/-- The integer payload of an `Int` argument. -/
def intOf : OscType → Option ℤ
  | .Int v => some v
  | _ => none

/-- The float payload of a `Float` argument. -/
def floatOf : OscType → Option ℚ
  | .Float v => some v
  | _ => none

/-- The last `Int`-typed entry of an argument list, scanning from the
end. -/
def lastIntOf (args : List OscType) : Option ℤ :=
  args.reverse.findSome? intOf

/-- The last `Float`-typed entry of an argument list, scanning from the
end. -/
def lastFloatOf (args : List OscType) : Option ℚ :=
  args.reverse.findSome? floatOf

/-- Mirror of the spec's description of integer decoding, written from its
words (spec.md §4.2): "if exactly one argument is present, coerce it
directly (Int passes through, Float truncates toward zero); if multiple
arguments are present, scan from the end and return the last Int-typed
entry; if no Int is found, fall back to the first argument if it is Int
or Float, else fail."  Failure carries no message, so it can be compared
with the implementation up to the error payload. -/
def i32SpecDecode (args : List OscType) : Except Unit ℤ :=
  if args.length = 1 then
    match args.head? with
    | some (.Int v) => .ok v
    | some (.Float q) => .ok (f32ToI32 q)
    | _ => .error ()
  else
    match lastIntOf args with
    | some v => .ok v
    | none =>
      match args.head? with
      | some (.Int v) => .ok v
      | some (.Float q) => .ok (f32ToI32 q)
      | _ => .error ()

/-- Mirror of the spec's description of float decoding, written from its
words (spec.md §4.2 and claim text): "a single Float argument is returned
directly; a single Int argument is coerced to float; with multiple
arguments the last Float-typed entry (scanning from the end) is returned;
if none matches, the first argument is coerced if Int or Float; otherwise
an InvalidResponse error results." -/
def f32SpecDecode (args : List OscType) : Except Unit ℚ :=
  if args.length = 1 then
    match args.head? with
    | some (.Float q) => .ok q
    | some (.Int v) => .ok (intToF32 v)
    | _ => .error ()
  else
    match lastFloatOf args with
    | some q => .ok q
    | none =>
      match args.head? with
      | some (.Int v) => .ok (intToF32 v)
      | some (.Float q) => .ok q
      | _ => .error ()

/-- Forget the error payload of a decode result, for comparison with the
payload-free spec mirror. -/
def eraseErr {T : Type} (r : Except Error T) : Except Unit T :=
  r.mapError fun _ => ()

/-! ### Helper lemmas -/

lemma i32RevLoop_eq_findSome (l : List OscType) :
    i32RevLoop l = l.findSome? intOf := by
  induction l with
  | nil => rfl
  | cons a rest ih => cases a <;> simp [i32RevLoop, List.findSome?, intOf, ih]

lemma f32RevLoop_eq_findSome (n : Nat) (hn : (n == 1) = false)
    (l : List OscType) : f32RevLoop n l = l.findSome? floatOf := by
  induction l with
  | nil => rfl
  | cons a rest ih => cases a <;> simp [f32RevLoop, List.findSome?, floatOf, hn, ih]

lemma clear_append (pre rest : List RecvOutcome)
    (h : pre.all (fun ev => !isTimeoutEv ev) = true) :
    clear_recv_buffer (pre ++ (.timeout :: rest)) = rest := by
  induction pre with
  | nil => rfl
  | cons e pre' ih =>
    cases e with
    | timeout => simp [isTimeoutEv] at h
    | ioError s =>
      simp only [List.all_cons, Bool.and_eq_true] at h
      simpa [clear_recv_buffer] using ih h.2
    | datagram d =>
      simp only [List.all_cons, Bool.and_eq_true] at h
      simpa [clear_recv_buffer] using ih h.2

lemma collect_loop_map (ps : List OscPacket) (acc : List OscPacket) :
    collect_loop (ps.map fun p => .datagram (.ok p)) acc = acc ++ ps := by
  induction ps generalizing acc with
  | nil => simp [collect_loop]
  | cons p ps' ih => simp [collect_loop, ih]

lemma collect_loop_map_timeout (ps : List OscPacket) (acc : List OscPacket)
    (rest : List RecvOutcome) :
    collect_loop ((ps.map fun p => .datagram (.ok p)) ++ (.timeout :: rest))
      acc = acc ++ ps := by
  induction ps generalizing acc with
  | nil => simp [collect_loop]
  | cons p ps' ih => simp [collect_loop, ih]

lemma collect_loop_map_ioerr (ps : List OscPacket) (acc : List OscPacket)
    (s : String) (rest : List RecvOutcome) :
    collect_loop ((ps.map fun p => .datagram (.ok p)) ++ (.ioError s :: rest))
      acc = acc ++ ps := by
  induction ps generalizing acc with
  | nil => simp [collect_loop]
  | cons p ps' ih => simp [collect_loop, ih]

lemma firstMessageArgs_err (l : List OscPacket) (e : Error)
    (h : firstMessageArgs l = .error e) : e = .InvalidResponse "Empty bundle" := by
  induction l with
  | nil =>
    simp only [firstMessageArgs, Except.error.injEq] at h
    exact h.symm
  | cons p rest ih =>
    cases p with
    | Message a args => simp [firstMessageArgs] at h
    | Bundle c => exact ih (by simpa [firstMessageArgs] using h)

lemma firstMessageArgs_none (l : List OscPacket)
    (h : ∀ p ∈ l, isMessage p = false) :
    firstMessageArgs l = .error (.InvalidResponse "Empty bundle") := by
  induction l with
  | nil => rfl
  | cons p rest ih =>
    cases p with
    | Message a args => simpa [isMessage] using h (.Message a args) (by simp)
    | Bundle c =>
      simp only [firstMessageArgs]
      exact ih fun q hq => h q (by simp [hq])

lemma firstMessageArgs_err_no_msg (l : List OscPacket)
    (h : firstMessageArgs l = .error (.InvalidResponse "Empty bundle")) :
    ∀ p ∈ l, isMessage p = false := by
  induction l with
  | nil => simp
  | cons p rest ih =>
    cases p with
    | Message a args => simp [firstMessageArgs] at h
    | Bundle c =>
      intro q hq
      rcases List.mem_cons.mp hq with hq | hq
      · simp [hq, isMessage]
      · exact ih (by simpa [firstMessageArgs] using h) q hq

lemma vecFromOsc_err (p : OscPacket) (e : Error)
    (h : vecFromOsc p = .error e) : ∃ m, e = .InvalidResponse m := by
  cases p with
  | Message a args => simp [vecFromOsc] at h
  | Bundle c =>
    exact ⟨_, firstMessageArgs_err c e (by simpa [vecFromOsc] using h)⟩

lemma i32FromArgs_err (args : List OscType) (e : Error)
    (h : i32FromArgs args = .error e) : ∃ m, e = .InvalidResponse m := by
  unfold i32FromArgs at h
  repeat' split at h
  all_goals try exact ⟨_, (Except.error.inj h).symm⟩
  all_goals simp at h

lemma f32FromArgs_err (args : List OscType) (e : Error)
    (h : f32FromArgs args = .error e) : ∃ m, e = .InvalidResponse m := by
  unfold f32FromArgs at h
  repeat' split at h
  all_goals try exact ⟨_, (Except.error.inj h).symm⟩
  all_goals simp at h

lemma i32FromOsc_err (p : OscPacket) (e : Error)
    (h : i32FromOsc p = .error e) : ∃ m, e = .InvalidResponse m := by
  unfold i32FromOsc at h
  cases hv : vecFromOsc p with
  | error e' =>
    rw [hv] at h
    simp only [Except.bind] at h
    exact (Except.error.inj h) ▸ vecFromOsc_err p e' hv
  | ok args =>
    rw [hv] at h
    simp only [Except.bind] at h
    exact i32FromArgs_err args e h

lemma f32FromOsc_err (p : OscPacket) (e : Error)
    (h : f32FromOsc p = .error e) : ∃ m, e = .InvalidResponse m := by
  unfold f32FromOsc at h
  cases hv : vecFromOsc p with
  | error e' =>
    rw [hv] at h
    simp only [Except.bind] at h
    exact (Except.error.inj h) ▸ vecFromOsc_err p e' hv
  | ok args =>
    rw [hv] at h
    simp only [Except.bind] at h
    exact f32FromArgs_err args e h

lemma i32_code_eq_spec (args : List OscType) (h : args ≠ []) :
    eraseErr (i32FromArgs args) = i32SpecDecode args := by
  match args with
  | [] => exact absurd rfl h
  | [a] => cases a <;> rfl
  | a :: b :: rest =>
    have hlen : ((a :: b :: rest).length == 1) = false := by simp
    have hlen' : ¬((a :: b :: rest).length = 1) := by simp
    have hrev : i32RevLoop (a :: b :: rest).reverse = lastIntOf (a :: b :: rest) := by
      rw [i32RevLoop_eq_findSome]; rfl
    simp only [i32FromArgs, i32SpecDecode, hlen, hlen', if_false, Bool.false_eq_true,
      if_neg hlen', hrev]
    cases hl : lastIntOf (a :: b :: rest) with
    | some v => rfl
    | none => cases a <;> rfl

lemma f32_code_eq_spec (args : List OscType) (h : args ≠ []) :
    eraseErr (f32FromArgs args) = f32SpecDecode args := by
  match args with
  | [] => exact absurd rfl h
  | [a] => cases a <;> rfl
  | a :: b :: rest =>
    have hlen : ((a :: b :: rest).length == 1) = false := by simp
    have hlen' : ¬((a :: b :: rest).length = 1) := by simp
    have hrev : f32RevLoop (a :: b :: rest).length (a :: b :: rest).reverse =
        lastFloatOf (a :: b :: rest) := by
      rw [f32RevLoop_eq_findSome _ hlen]; rfl
    simp only [f32FromArgs, f32SpecDecode, hlen, hlen', if_neg hlen', hrev]
    cases hl : lastFloatOf (a :: b :: rest) with
    | some v => rfl
    | none => cases a <;> rfl

lemma client_ok_inner (h : OscHandle) (m : Except Error ClientRes)
    (c : ClientRes) (h' : OscHandle)
    (hcl : OscHandle.client h m = (.ok c, h')) : h'.inner = some c := by
  cases hin : h.inner with
  | some c0 =>
    simp only [OscHandle.client, hin, Prod.mk.injEq, Except.ok.injEq] at hcl
    obtain ⟨hc, hh⟩ := hcl
    rw [← hh, hin, hc]
  | none =>
    cases m with
    | ok c0 =>
      simp only [OscHandle.client, hin, Prod.mk.injEq, Except.ok.injEq] at hcl
      obtain ⟨hc, hh⟩ := hcl
      rw [← hh]
      simp [hc]
    | error e =>
      simp only [OscHandle.client, hin, Prod.mk.injEq] at hcl
      exact absurd hcl.1 (by simp)

lemma client_cached (h : OscHandle) (c : ClientRes)
    (m : Except Error ClientRes) (hin : h.inner = some c) :
    OscHandle.client h m = (.ok c, h) := by
  simp [OscHandle.client, hin]

lemma accessAll_cached (h : OscHandle) (c : ClientRes)
    (hin : h.inner = some c) (ms : List (Except Error ClientRes)) :
    OscHandle.accessAll h ms = (ms.map fun _ => .ok c, h) := by
  induction ms with
  | nil => rfl
  | cons m ms' ih =>
    simp only [OscHandle.accessAll, client_cached h c m hin, ih, List.map_cons]

lemma firstMessageArgs_skip (pre l : List OscPacket)
    (h : ∀ p ∈ pre, isMessage p = false) :
    firstMessageArgs (pre ++ l) = firstMessageArgs l := by
  induction pre with
  | nil => rfl
  | cons q pre' ih =>
    cases q with
    | Message a as => simpa [isMessage] using h (.Message a as) (by simp)
    | Bundle c =>
      simp only [List.cons_append, firstMessageArgs]
      exact ih fun p hp => h p (by simp [hp])

/-! ### Claim theorems -/

/-- Claim C1: `OscClient::query` first drains the receive buffer (stale
datagrams sitting before the flush-ending timeout never change the
result), then sends, then waits for exactly one reply datagram within the
response timeout: an elapsed window yields `Timeout`, a failed receive
yields `Network`, and an arriving reply packet is handed to the requested
type's decoder, whose failures are always `InvalidResponse` (shown for
each `FromOsc` impl: `i32`, `f32`, `Vec<OscType>`). -/
theorem c1_query_behavior {T : Type} (env : NetEnv) (addr : String)
    (args : List OscType) (decode : OscPacket → Except Error T)
    (trace : List RecvOutcome)
    (henc : env.encode addr args = .ok ()) (hsend : env.sendErr = none) :
    ((recvOne (clear_recv_buffer trace)).1 = .timeout →
      query env addr args decode trace = .error .Timeout) ∧
    (∀ e, (recvOne (clear_recv_buffer trace)).1 = .ioError e →
      query env addr args decode trace = .error (.Network e)) ∧
    (∀ p, (recvOne (clear_recv_buffer trace)).1 = .datagram (.ok p) →
      query env addr args decode trace = decode p) ∧
    (∀ p e, i32FromOsc p = .error e → ∃ m, e = .InvalidResponse m) ∧
    (∀ p e, f32FromOsc p = .error e → ∃ m, e = .InvalidResponse m) ∧
    (∀ p e, vecFromOsc p = .error e → ∃ m, e = .InvalidResponse m) ∧
    (∀ pre rest, pre.all (fun ev => !isTimeoutEv ev) = true →
      query env addr args decode (pre ++ (.timeout :: rest)) =
        query env addr args decode (.timeout :: rest)) := by
  refine ⟨?_, ?_, ?_, i32FromOsc_err, f32FromOsc_err, vecFromOsc_err, ?_⟩
  · intro ht
    simp [query, send, henc, hsend, ht]
  · intro e he
    simp [query, send, henc, hsend, he]
  · intro p hp
    simp [query, send, henc, hsend, hp]
  · intro pre rest hpre
    simp only [query]
    rw [clear_append pre rest hpre]
    rfl

/-- Claim C2: `OscClient::query_all` drains stale input, sends once, then
collects each arriving decodable datagram in order, each receive getting
a fresh timeout window, and returns the whole collected list as soon as
one receive attempt times out — both when the peer simply goes silent and
when an explicit elapsed window follows the datagrams. -/
theorem c2_query_all_collects (env : NetEnv) (addr : String)
    (args : List OscType) (henc : env.encode addr args = .ok ())
    (hsend : env.sendErr = none) (ps : List OscPacket)
    (pre rest : List RecvOutcome)
    (hpre : pre.all (fun ev => !isTimeoutEv ev) = true) :
    query_all env addr args
      (pre ++ (.timeout :: ps.map fun p => .datagram (.ok p))) = .ok ps ∧
    query_all env addr args
      (pre ++ (.timeout :: ((ps.map fun p => .datagram (.ok p)) ++
        (.timeout :: rest)))) = .ok ps := by
  constructor
  · simp [query_all, send, henc, hsend, clear_append _ _ hpre, collect_loop_map]
  · simp [query_all, send, henc, hsend, clear_append _ _ hpre,
      collect_loop_map_timeout]

/-- Claim C3 counterexample: inside `query_all`'s collection loop a
receive failure is not returned as an error — the loop exits and the
packets collected so far come back as `Ok` — and a datagram that fails
OSC decoding is silently skipped.  Both runs below contain such a failure
yet return `Ok([])`. -/
theorem c3_counterexample :
    query_all ⟨fun _ _ => .ok (), none⟩ "/live/song/get/track_data" []
      [.timeout, .ioError "connection reset"] = .ok [] ∧
    query_all ⟨fun _ _ => .ok (), none⟩ "/live/song/get/track_data" []
      [.timeout, .datagram (.error "bad packet"), .timeout] = .ok [] :=
  ⟨rfl, rfl⟩

/-- Claim C3 (amended): errors arising in `send`, `query` and
`test_connection` are surfaced in the returned `Result` (encode and
socket errors by `send`; receive failures and wire-decode failures by
`query`), but in `query_all`'s collection loop a receive failure silently
ends collection — the packets collected so far are returned as `Ok` — and
a datagram failing OSC decoding is silently skipped. -/
theorem c3_error_surfacing {T : Type} (decode : OscPacket → Except Error T) :
    (∀ (env : NetEnv) (addr : String) (args : List OscType) (e : String),
      env.encode addr args = .error e →
      (send env addr args).1 = .error (.OscEncode e)) ∧
    (∀ (env : NetEnv) (addr : String) (args : List OscType) (e : String),
      env.encode addr args = .ok () → env.sendErr = some e →
      (send env addr args).1 = .error (.Network e)) ∧
    (∀ (env : NetEnv) (addr : String) (args : List OscType)
      (trace : List RecvOutcome) (e : String),
      env.encode addr args = .ok () → env.sendErr = none →
      (recvOne (clear_recv_buffer trace)).1 = .ioError e →
      query env addr args decode trace = .error (.Network e)) ∧
    (∀ (env : NetEnv) (addr : String) (args : List OscType)
      (trace : List RecvOutcome) (e : String),
      env.encode addr args = .ok () → env.sendErr = none →
      (recvOne (clear_recv_buffer trace)).1 = .datagram (.error e) →
      query env addr args decode trace = .error (.OscEncode e)) ∧
    (∀ (env : NetEnv) (addr : String) (args : List OscType)
      (ps : List OscPacket) (pre rest : List RecvOutcome) (e : String),
      env.encode addr args = .ok () → env.sendErr = none →
      pre.all (fun ev => !isTimeoutEv ev) = true →
      query_all env addr args
        (pre ++ (.timeout :: ((ps.map fun p => .datagram (.ok p)) ++
          (.ioError e :: rest)))) = .ok ps) ∧
    (∀ (env : NetEnv) (addr : String) (args : List OscType)
      (ps : List OscPacket) (pre : List RecvOutcome) (e : String),
      env.encode addr args = .ok () → env.sendErr = none →
      pre.all (fun ev => !isTimeoutEv ev) = true →
      query_all env addr args
        (pre ++ (.timeout :: (.datagram (.error e) ::
          (ps.map fun p => .datagram (.ok p))))) = .ok ps) := by
  refine ⟨?_, ?_, ?_, ?_, ?_, ?_⟩
  · intro env addr args e h
    simp [send, h]
  · intro env addr args e h1 h2
    simp [send, h1, h2]
  · intro env addr args trace e h1 h2 h3
    simp [query, send, h1, h2, h3]
  · intro env addr args trace e h1 h2 h3
    simp [query, send, h1, h2, h3]
  · intro env addr args ps pre rest e h1 h2 hpre
    simp [query_all, send, h1, h2, clear_append _ _ hpre, collect_loop_map_ioerr]
  · intro env addr args ps pre e h1 h2 hpre
    simp [query_all, send, h1, h2, clear_append _ _ hpre, collect_loop,
      collect_loop_map]

/-- Claim C4: for every packet whose extracted argument list is
non-empty, decoding to a 32-bit integer follows the spec's rule (single
argument: Int passes through, Float truncates toward zero; multiple
arguments: last Int from the end, else first argument if Int or Float,
else fail), and every failure is an `InvalidResponse`. -/
theorem c4_i32_decode (p : OscPacket) (args : List OscType)
    (hargs : vecFromOsc p = .ok args) (hne : args ≠ []) :
    eraseErr (i32FromOsc p) = i32SpecDecode args ∧
    (∀ e, i32FromOsc p = .error e → ∃ m, e = .InvalidResponse m) := by
  have hb : i32FromOsc p = i32FromArgs args := by
    unfold i32FromOsc
    rw [hargs]
    rfl
  exact ⟨hb ▸ i32_code_eq_spec args hne, fun e h => i32FromOsc_err p e h⟩

/-- Claim C4 witness: `[Int(0), Int(7)]` decodes as the integer `7` (last
Int wins). -/
theorem c4_witness :
    eraseErr (i32FromOsc (.Message "/live/track" [.Int 0, .Int 7])) =
      i32SpecDecode [.Int 0, .Int 7] ∧
    i32FromOsc (.Message "/live/track" [.Int 0, .Int 7]) = .ok 7 :=
  ⟨(c4_i32_decode (.Message "/live/track" [.Int 0, .Int 7])
      [.Int 0, .Int 7] rfl (by simp)).1, rfl⟩

/-- Claim C5: for every packet whose extracted argument list is
non-empty, decoding to a 32-bit float follows the spec's rule (single
Float direct, single Int coerced, multiple arguments: last Float from the
end, else first argument coerced if Int or Float, else fail), and every
failure is an `InvalidResponse`. -/
theorem c5_f32_decode (p : OscPacket) (args : List OscType)
    (hargs : vecFromOsc p = .ok args) (hne : args ≠ []) :
    eraseErr (f32FromOsc p) = f32SpecDecode args ∧
    (∀ e, f32FromOsc p = .error e → ∃ m, e = .InvalidResponse m) := by
  have hb : f32FromOsc p = f32FromArgs args := by
    unfold f32FromOsc
    rw [hargs]
    rfl
  exact ⟨hb ▸ f32_code_eq_spec args hne, fun e h => f32FromOsc_err p e h⟩

/-- Claim C5 witness: `[Int(0), Float(0.5)]` decodes as the float `0.5`
(last Float wins) and `[Int(5)]` decodes as `5.0` (single-int
coercion). -/
theorem c5_witness :
    eraseErr (f32FromOsc (.Message "/live/vol" [.Int 0, .Float (1 / 2)])) =
      f32SpecDecode [.Int 0, .Float (1 / 2)] ∧
    f32FromOsc (.Message "/live/vol" [.Int 0, .Float (1 / 2)]) = .ok (1 / 2) ∧
    f32FromOsc (.Message "/live/vol" [.Int 5]) = .ok 5 :=
  ⟨(c5_f32_decode (.Message "/live/vol" [.Int 0, .Float (1 / 2)])
      [.Int 0, .Float (1 / 2)] rfl (by simp)).1, rfl,
    by norm_num [f32FromOsc, vecFromOsc, f32FromArgs, f32RevLoop, intToF32,
      Except.bind]⟩

/-- Claim C6: extraction of the raw argument list returns a Message's own
arguments; on a Bundle it returns the first directly nested Message's
arguments, ignoring the other nested packets, and fails with
`InvalidResponse("Empty bundle")` exactly when no directly nested packet
is a Message. -/
theorem c6_bundle_extract :
    (∀ (addr : String) (args : List OscType),
      vecFromOsc (.Message addr args) = .ok args) ∧
    (∀ (pre : List OscPacket) (addr : String) (args : List OscType)
      (rest : List OscPacket), (∀ p ∈ pre, isMessage p = false) →
      vecFromOsc (.Bundle (pre ++ (.Message addr args :: rest))) = .ok args) ∧
    (∀ content : List OscPacket,
      vecFromOsc (.Bundle content) =
          .error (.InvalidResponse "Empty bundle") ↔
        ∀ p ∈ content, isMessage p = false) := by
  refine ⟨fun addr args => rfl, ?_, ?_⟩
  · intro pre addr args rest h
    simp only [vecFromOsc, firstMessageArgs_skip pre _ h, firstMessageArgs]
  · intro content
    constructor
    · intro h
      exact firstMessageArgs_err_no_msg content (by simpa [vecFromOsc] using h)
    · intro h
      simpa [vecFromOsc] using firstMessageArgs_none content h

/-- Claim C6 witness: a bundle whose first nested Message sits after a
nested bundle decodes to that Message's arguments; a bundle with no
directly nested Message fails with `InvalidResponse("Empty bundle")`. -/
theorem c6_witness :
    vecFromOsc (.Bundle [.Bundle [], .Message "/a" [.Int 1],
      .Message "/b" [.Int 2]]) = .ok [.Int 1] ∧
    vecFromOsc (.Bundle [.Bundle [.Message "/x" []]]) =
      .error (.InvalidResponse "Empty bundle") :=
  ⟨c6_bundle_extract.2.1 [.Bundle []] "/a" [.Int 1] [.Message "/b" [.Int 2]]
      (by simp [isMessage]),
    (c6_bundle_extract.2.2 [.Bundle [.Message "/x" []]]).mpr
      (by simp [isMessage])⟩

/-- Claim C7: `test_connection` returns `Ok(true)` when the underlying
tempo query succeeds, `Ok(false)` exactly when it fails with `Timeout`,
and propagates every other error unchanged. -/
theorem c7_test_connection (env : NetEnv) (trace : List RecvOutcome) :
    (∀ v : List OscType,
      query env "/live/song/get/tempo" [] vecFromOsc trace = .ok v →
      test_connection env trace = .ok true) ∧
    (query env "/live/song/get/tempo" [] vecFromOsc trace =
        .error .Timeout ↔ test_connection env trace = .ok false) ∧
    (∀ e : Error, e ≠ .Timeout →
      query env "/live/song/get/tempo" [] vecFromOsc trace = .error e →
      test_connection env trace = .error e) := by
  refine ⟨?_, ⟨?_, ?_⟩, ?_⟩
  · intro v hv
    simp [test_connection, hv]
  · intro h
    simp [test_connection, h]
  · intro h
    cases hq : query env "/live/song/get/tempo" [] vecFromOsc trace with
    | ok v => simp [test_connection, hq] at h
    | error e =>
      cases e with
      | Timeout => rfl
      | OscEncode s => simp [test_connection, hq] at h
      | Network s => simp [test_connection, hq] at h
      | InvalidResponse s => simp [test_connection, hq] at h
      | InvalidParameter s => simp [test_connection, hq] at h
      | NotConnected => simp [test_connection, hq] at h
  · intro e he hq
    cases e with
    | Timeout => exact absurd rfl he
    | OscEncode s => simp [test_connection, hq]
    | Network s => simp [test_connection, hq]
    | InvalidResponse s => simp [test_connection, hq]
    | InvalidParameter s => simp [test_connection, hq]
    | NotConnected => simp [test_connection, hq]

/-- Claim C7 witness: a decodable reply gives `Ok(true)`, a silent peer
gives `Ok(false)`, and a receive failure propagates as `Network`. -/
theorem c7_witness :
    test_connection ⟨fun _ _ => .ok (), none⟩
      [.timeout, .datagram (.ok (.Message "/live/song/get/tempo"
        [.Float 120]))] = .ok true ∧
    test_connection ⟨fun _ _ => .ok (), none⟩ [] = .ok false ∧
    test_connection ⟨fun _ _ => .ok (), none⟩
      [.timeout, .ioError "connection refused"] =
      .error (.Network "connection refused") :=
  ⟨(c7_test_connection ⟨fun _ _ => .ok (), none⟩
      [.timeout, .datagram (.ok (.Message "/live/song/get/tempo"
        [.Float 120]))]).1 [.Float 120] rfl,
    (c7_test_connection ⟨fun _ _ => .ok (), none⟩ []).2.1.mp rfl,
    (c7_test_connection ⟨fun _ _ => .ok (), none⟩
      [.timeout, .ioError "connection refused"]).2.2
      (.Network "connection refused") (by simp) rfl⟩

/-- Claim C8: a fresh `OscHandle` holds no client; a successful first
access initializes the handle and leaves it initialized, and every
subsequent access — whatever the constructor outcome would be — returns
the very same cached client with the state unchanged. -/
theorem c8_lazy_handle :
    OscHandle.new.isInit = false ∧
    (∀ (h : OscHandle) (m : Except Error ClientRes) (c : ClientRes)
      (h' : OscHandle),
      OscHandle.client h m = (.ok c, h') → h'.isInit = true) ∧
    (∀ (h : OscHandle) (c : ClientRes) (m : Except Error ClientRes),
      h.inner = some c → OscHandle.client h m = (.ok c, h)) ∧
    (∀ (h : OscHandle) (m : Except Error ClientRes) (c : ClientRes)
      (h' : OscHandle) (ms : List (Except Error ClientRes)),
      OscHandle.client h m = (.ok c, h') →
      OscHandle.accessAll h' ms = (ms.map fun _ => .ok c, h')) := by
  refine ⟨rfl, ?_, fun h c m hin => client_cached h c m hin, ?_⟩
  · intro h m c h' hcl
    simp [OscHandle.isInit, client_ok_inner h m c h' hcl]
  · intro h m c h' ms hcl
    exact accessAll_cached h' c (client_ok_inner h m c h' hcl) ms

/-- Claim C8 witness: first access caches the client; later accesses
(even ones whose constructor outcome would fail) return the same client
and leave the state unchanged. -/
theorem c8_witness :
    OscHandle.client OscHandle.new (.ok ⟨9000⟩) =
      (.ok ⟨9000⟩, ⟨some ⟨9000⟩⟩) ∧
    OscHandle.isInit ⟨some ⟨9000⟩⟩ = true ∧
    OscHandle.client ⟨some ⟨9000⟩⟩ (.error .Timeout) =
      (.ok ⟨9000⟩, ⟨some ⟨9000⟩⟩) ∧
    OscHandle.accessAll ⟨some ⟨9000⟩⟩ [.error .NotConnected, .ok ⟨9001⟩] =
      ([.ok ⟨9000⟩, .ok ⟨9000⟩], ⟨some ⟨9000⟩⟩) :=
  ⟨rfl,
    c8_lazy_handle.2.1 OscHandle.new (.ok ⟨9000⟩) ⟨9000⟩ ⟨some ⟨9000⟩⟩ rfl,
    c8_lazy_handle.2.2.1 ⟨some ⟨9000⟩⟩ ⟨9000⟩ (.error .Timeout) rfl,
    c8_lazy_handle.2.2.2 OscHandle.new (.ok ⟨9000⟩) ⟨9000⟩ ⟨some ⟨9000⟩⟩
      [.error .NotConnected, .ok ⟨9001⟩] rfl⟩

/-- Claim C9: both receive loops are bounded: the `clear_recv_buffer`
flush and the `query_all` collection loop each halt within
`trace.length + 1` receive attempts for every sequence of outcomes,
including attempts that end in an error or a stale datagram. -/
theorem c9_bounded_receive :
    (∀ trace : List RecvOutcome,
      clearFuel (trace.length + 1) trace = some (clear_recv_buffer trace)) ∧
    (∀ (trace : List RecvOutcome) (acc : List OscPacket),
      collectFuel (trace.length + 1) trace acc =
        some (collect_loop trace acc)) := by
  constructor
  · intro trace
    induction trace with
    | nil => rfl
    | cons e rest ih =>
      cases e with
      | timeout => rfl
      | ioError s => simpa [clearFuel, clear_recv_buffer] using ih
      | datagram d => simpa [clearFuel, clear_recv_buffer] using ih
  · intro trace
    induction trace with
    | nil => intro acc; rfl
    | cons e rest ih =>
      intro acc
      cases e with
      | timeout => rfl
      | ioError s => rfl
      | datagram d =>
        cases d with
        | ok p => simpa [collectFuel, collect_loop] using ih (acc ++ [p])
        | error s => simpa [collectFuel, collect_loop] using ih acc

/-- Claim C10: when OSC encoding fails, `OscClient::send` returns the
encode error and no datagram is put on the wire: `send_to` runs strictly
after `encoder::encode(..)?` succeeds. -/
theorem c10_encode_before_send (env : NetEnv) (addr : String)
    (args : List OscType) (e : String)
    (h : env.encode addr args = .error e) :
    send env addr args = (.error (.OscEncode e), false) := by
  simp [send, h]

/-- Claim C10 witness: a failing encode yields the encode error with
nothing transmitted. -/
theorem c10_witness :
    send ⟨fun _ _ => .error "unsupported argument type", none⟩
      "/live/test" [.Nil] =
      (.error (.OscEncode "unsupported argument type"), false) :=
  c10_encode_before_send ⟨fun _ _ => .error "unsupported argument type", none⟩
    "/live/test" [.Nil] "unsupported argument type" rfl

/-- Claim C1 witness: concrete runs of `query` hitting the timeout,
receive-failure, and reply cases, plus a concrete drained stale prefix
that does not change the result. -/
theorem c1_witness :
    query ⟨fun _ _ => .ok (), none⟩ "/live/song/get/tempo" [] i32FromOsc []
      = .error .Timeout ∧
    query ⟨fun _ _ => .ok (), none⟩ "/live/song/get/tempo" [] i32FromOsc
      [.timeout, .ioError "network down"] =
      .error (.Network "network down") ∧
    query ⟨fun _ _ => .ok (), none⟩ "/live/song/get/tempo" [] i32FromOsc
      [.timeout, .datagram (.ok (.Message "/live/song/get/tempo" [.Int 3]))]
      = i32FromOsc (.Message "/live/song/get/tempo" [.Int 3]) ∧
    (∃ m, Error.InvalidResponse ("Expected int, got " ++ debugFmt (.String "x"))
      = .InvalidResponse m) ∧
    query ⟨fun _ _ => .ok (), none⟩ "/live/song/get/tempo" [] i32FromOsc
      [.datagram (.error "junk"), .ioError "stale", .timeout] =
      query ⟨fun _ _ => .ok (), none⟩ "/live/song/get/tempo" [] i32FromOsc
        [.timeout] :=
  ⟨(c1_query_behavior ⟨fun _ _ => .ok (), none⟩ "/live/song/get/tempo" []
      i32FromOsc [] rfl rfl).1 rfl,
    (c1_query_behavior ⟨fun _ _ => .ok (), none⟩ "/live/song/get/tempo" []
      i32FromOsc [.timeout, .ioError "network down"] rfl rfl).2.1
      "network down" rfl,
    (c1_query_behavior ⟨fun _ _ => .ok (), none⟩ "/live/song/get/tempo" []
      i32FromOsc [.timeout, .datagram (.ok (.Message "/live/song/get/tempo"
        [.Int 3]))] rfl rfl).2.2.1 (.Message "/live/song/get/tempo" [.Int 3])
      rfl,
    (c1_query_behavior ⟨fun _ _ => .ok (), none⟩ "/live/song/get/tempo" []
      i32FromOsc [] rfl rfl).2.2.2.1 (.Message "/t" [.String "x", .Nil])
      (.InvalidResponse ("Expected int, got " ++ debugFmt (.String "x"))) rfl,
    (c1_query_behavior ⟨fun _ _ => .ok (), none⟩ "/live/song/get/tempo" []
      i32FromOsc [] rfl rfl).2.2.2.2.2.2
      [.datagram (.error "junk"), .ioError "stale"] [] rfl⟩

/-- Claim C2 witness: a peer that sends exactly three reply datagrams and
then goes silent yields exactly the three packets, in arrival order. -/
theorem c2_witness :
    query_all ⟨fun _ _ => .ok (), none⟩ "/live/song/get/track_names" []
      [.datagram (.ok (.Message "/stale" [])), .timeout,
        .datagram (.ok (.Message "/a" [.Int 1])),
        .datagram (.ok (.Message "/b" [.Int 2])),
        .datagram (.ok (.Message "/c" [.Int 3]))] =
      .ok [.Message "/a" [.Int 1], .Message "/b" [.Int 2],
        .Message "/c" [.Int 3]] :=
  (c2_query_all_collects ⟨fun _ _ => .ok (), none⟩
    "/live/song/get/track_names" [] rfl rfl
    [.Message "/a" [.Int 1], .Message "/b" [.Int 2], .Message "/c" [.Int 3]]
    [.datagram (.ok (.Message "/stale" []))] [] rfl).1

/-- Claim C3 (amended) witness: each surfacing case at a concrete input,
and the two silent-swallowing behaviors of `query_all`'s loop. -/
theorem c3_witness :
    (send ⟨fun _ _ => .error "enc", none⟩ "/a" []).1 =
      .error (.OscEncode "enc") ∧
    (send ⟨fun _ _ => .ok (), some "io"⟩ "/a" []).1 =
      .error (.Network "io") ∧
    query ⟨fun _ _ => .ok (), none⟩ "/a" [] vecFromOsc
      [.timeout, .ioError "recv fail"] = .error (.Network "recv fail") ∧
    query ⟨fun _ _ => .ok (), none⟩ "/a" [] vecFromOsc
      [.timeout, .datagram (.error "bad wire")] =
      .error (.OscEncode "bad wire") ∧
    query_all ⟨fun _ _ => .ok (), none⟩ "/a" []
      [.timeout, .datagram (.ok (.Message "/m" [])), .ioError "recv fail"] =
      .ok [.Message "/m" []] ∧
    query_all ⟨fun _ _ => .ok (), none⟩ "/a" []
      [.timeout, .datagram (.error "bad wire"),
        .datagram (.ok (.Message "/m" []))] = .ok [.Message "/m" []] :=
  ⟨(c3_error_surfacing vecFromOsc).1 ⟨fun _ _ => .error "enc", none⟩ "/a" []
      "enc" rfl,
    (c3_error_surfacing vecFromOsc).2.1 ⟨fun _ _ => .ok (), some "io"⟩ "/a"
      [] "io" rfl rfl,
    (c3_error_surfacing vecFromOsc).2.2.1 ⟨fun _ _ => .ok (), none⟩ "/a" []
      [.timeout, .ioError "recv fail"] "recv fail" rfl rfl rfl,
    (c3_error_surfacing vecFromOsc).2.2.2.1 ⟨fun _ _ => .ok (), none⟩ "/a" []
      [.timeout, .datagram (.error "bad wire")] "bad wire" rfl rfl rfl,
    (c3_error_surfacing vecFromOsc).2.2.2.2.1 ⟨fun _ _ => .ok (), none⟩ "/a"
      [] [.Message "/m" []] [] [] "recv fail" rfl rfl rfl,
    (c3_error_surfacing vecFromOsc).2.2.2.2.2 ⟨fun _ _ => .ok (), none⟩ "/a"
      [] [.Message "/m" []] [] "bad wire" rfl rfl rfl⟩

end Remix
